import Mathlib

/-!
Verification of the shoutbox-go email client library.

Shallow embedding of the message-construction logic of the repository:
- `client.go`: REST transport (`EmailRequest`, `Client.SendEmail` response handling),
- `smtp.go`: SMTP transport (`EmailMessage`, MIME multipart assembly),
- `helpers.go`: attachment construction and email validation helpers.

Machine bytes are modelled as `Nat` values below 256; strings as Lean `String`.
Fallible operations return `Option`.  I/O results (file reads, HTTP responses)
are passed in as explicit parameters.
-/

/-! ### Generic string utilities -/

/-- Whether the list `l` begins with the list `pre` (element-wise equality). -/
def listStartsWith : List Char → List Char → Bool
  | _, [] => true
  | [], _ :: _ => false
  | c :: cs, d :: ds => c = d && listStartsWith cs ds

/-- Whether `sub` occurs as a contiguous sublist of `l`. -/
def listHasSub : List Char → List Char → Bool
  | l, sub =>
    if listStartsWith l sub then true
    else
      match l with
      | [] => false
      | _ :: rest => listHasSub rest sub

/-- Whether the string `sub` occurs as a substring of `s`
(model of Go `strings.Contains s sub`). -/
def strHasSub (s sub : String) : Bool :=
  listHasSub s.data sub.data

/-! ### A small JSON value model

Used to model `encoding/json` marshalling and decoding at the level of
parsed JSON values: an HTTP body that is not valid JSON is modelled as
`Option.none` at the use sites. -/

inductive Json where
  | null : Json
  | bool : Bool → Json
  | num : Int → Json
  | str : String → Json
  | arr : List Json → Json
  | obj : List (String × Json) → Json
deriving Repr

/-- Look up a key among JSON object members; the LAST binding wins, as in
Go `encoding/json` when an object repeats a key. -/
def lookupLast : List (String × Json) → String → Option Json
  | [], _ => none
  | (k, v) :: rest, key =>
    match lookupLast rest key with
    | some r => some r
    | none => if k = key then some v else none

/-! ### REST transport: `Client.SendEmail` response handling (client.go) -/

/-- ASCII-lowercase a string, used both for Go `encoding/json`'s
case-insensitive struct-field matching and for Go `mime`'s fallback
extension lookup.  (Go folds with full Unicode simple case folding, but for
the field name `"error"` and the ASCII extension table the ASCII fold
coincides with it: the letters e, r and o fold only with their ASCII
counterparts.) -/
def toLowerAscii (s : String) : String :=
  String.mk (s.data.map fun c =>
    if 65 ≤ c.toNat && c.toNat ≤ 90 then Char.ofNat (c.toNat + 32) else c)

/-- One pass of Go `json.Decode` over the members of a JSON object being
decoded into `struct { Error string }`: a member whose key matches the
`Error` field — case-insensitively, as `encoding/json` matches struct
fields, so `"error"`, `"Error"`, `"ERROR"`, ... all hit the field — of
string type overwrites it, a `null` value leaves it unchanged, any other
type is a decode error (Go records the error; the overall decode fails);
keys matching no field are ignored. -/
def decodeErrLoop : List (String × Json) → String → Option String
  | [], acc => some acc
  | (k, v) :: rest, acc =>
    if toLowerAscii k = "error" then
      match v with
      | Json.str s => decodeErrLoop rest s
      | Json.null => decodeErrLoop rest acc
      | _ => none
    else
      decodeErrLoop rest acc

/-- The last object member whose key matches the `Error` field under the
case-insensitive matching of `encoding/json` — the member whose value wins
when the decode succeeds. -/
def lookupLastErrorKey : List (String × Json) → Option Json
  | [] => none
  | (k, v) :: rest =>
    match lookupLastErrorKey rest with
    | some r => some r
    | none => if toLowerAscii k = "error" then some v else none

/-- Go `json.Decode` of a JSON value into `struct { Error string }`:
succeeds on an object (field value as per `decodeErrLoop`, default `""`)
and on `null` (zero value), fails on any other JSON value. -/
def decodeErrorResp : Json → Option String
  | Json.null => some ""
  | Json.obj ms => decodeErrLoop ms ""
  | _ => none

/-- An HTTP response as seen by `Client.SendEmail`: a status code and the
result of parsing the body as JSON (`none` when the body is not valid JSON,
including an empty body). -/
structure RestResponse where
  statusCode : Nat
  body : Option Json

/-- The error produced by the response-handling tail of `Client.SendEmail`
(client.go lines 58-75): status 200 returns no error; otherwise the body is
decoded into `struct { Error string }` and the error is
`"api error: <Error>"` on decode success, else
`"error response with status <code>"`. -/
def sendEmailResponseError (resp : RestResponse) : Option String :=
  if resp.statusCode = 200 then none
  else
    match resp.body.bind decodeErrorResp with
    | some e => some ("api error: " ++ e)
    | none => some ("error response with status " ++ Nat.repr resp.statusCode)

/-- The body "parses as a JSON object with a string error field": the last
`"error"` member of a JSON object, when it is a string. -/
def errorFieldOf : Option Json → Option String
  | some (Json.obj ms) =>
    match lookupLast ms "error" with
    | some (Json.str s) => some s
    | _ => none
  | _ => none

/-! ### REST transport: `EmailRequest` and its JSON serialization (client.go)

The Go struct carries `json:"..."` tags with `omitempty` on `name`,
`reply_to` and `headers`.  The `Headers` map is modelled as an association
list; a Go `map[string]string` value is represented canonically by the list
of its entries sorted strictly by key (byte-wise / code-point order, which
coincide for UTF-8), which is also the order in which `json.Marshal`
serializes a map. -/

structure EmailRequest where
  From : String
  To : String
  Subject : String
  HTML : String
  Name : String
  ReplyTo : String
  Headers : List (String × String)
deriving Repr, DecidableEq

/-- Byte-wise strict order on strings (UTF-8 byte order equals code-point
lexicographic order), as used by Go when sorting map keys for marshalling. -/
def listCharLt : List Char → List Char → Bool
  | [], [] => false
  | [], _ :: _ => true
  | _ :: _, [] => false
  | a :: as, b :: bs =>
    if a.toNat < b.toNat then true
    else if b.toNat < a.toNat then false
    else listCharLt as bs

def listCharLe : List Char → List Char → Bool
  | [], _ => true
  | _ :: _, [] => false
  | a :: as, b :: bs =>
    if a.toNat < b.toNat then true
    else if b.toNat < a.toNat then false
    else listCharLe as bs

def strKeyLt (a b : String) : Bool := listCharLt a.data b.data

def strKeyLe (a b : String) : Bool := listCharLe a.data b.data

/-- Insertion step of the key sort Go applies to map entries on marshal. -/
def insertPair (p : String × String) : List (String × String) → List (String × String)
  | [] => [p]
  | q :: qs => if strKeyLe p.1 q.1 then p :: q :: qs else q :: insertPair p qs

/-- Sort map entries by key, as `encoding/json` does before writing a map. -/
def sortPairs : List (String × String) → List (String × String)
  | [] => []
  | p :: ps => insertPair p (sortPairs ps)

/-- `json.Marshal` of an `EmailRequest` (client.go lines 19-27, invoked at
line 39): struct fields in declaration order, `omitempty` fields dropped when
empty (empty string / empty map), the `Headers` map written with sorted keys. -/
def EmailRequest.toJson (r : EmailRequest) : Json :=
  Json.obj
    ([("from", Json.str r.From), ("to", Json.str r.To),
      ("subject", Json.str r.Subject), ("html", Json.str r.HTML)]
     ++ (if r.Name = "" then [] else [("name", Json.str r.Name)])
     ++ (if r.ReplyTo = "" then [] else [("reply_to", Json.str r.ReplyTo)])
     ++ (if r.Headers = [] then []
         else [("headers", Json.obj ((sortPairs r.Headers).map
                  fun p => (p.1, Json.str p.2)))]))

/-- Decoding a string-typed struct field from JSON object members, Go style:
a missing key or a `null` value leaves the zero value `""`; a string value is
taken; any other type is a decode error. -/
def decodeStrField (ms : List (String × Json)) (k : String) : Option String :=
  match lookupLast ms k with
  | none => some ""
  | some Json.null => some ""
  | some (Json.str s) => some s
  | some _ => none

/-- Map-entry update: replace the value of an existing key, else append. -/
def setAssoc (l : List (String × String)) (k v : String) : List (String × String) :=
  if l.any (fun p => p.1 = k) then
    l.map (fun p => if p.1 = k then (k, v) else p)
  else l ++ [(k, v)]

/-- Decoding the members of a JSON object into a `map[string]string`:
each member's value must be a string (`null` gives the zero value `""`);
later bindings of a repeated key overwrite earlier ones. -/
def decodeStrMapLoop : List (String × Json) → List (String × String) → Option (List (String × String))
  | [], acc => some acc
  | (k, v) :: rest, acc =>
    match v with
    | Json.str s => decodeStrMapLoop rest (setAssoc acc k s)
    | Json.null => decodeStrMapLoop rest (setAssoc acc k "")
    | _ => none

/-- Decoding the optional `"headers"` field into a `map[string]string`:
missing or `null` gives the empty (nil) map. -/
def decodeHeadersField (ms : List (String × Json)) : Option (List (String × String)) :=
  match lookupLast ms "headers" with
  | none => some []
  | some Json.null => some []
  | some (Json.obj hs) => decodeStrMapLoop hs []
  | some _ => none

/-- `json.Unmarshal` of a JSON value into an `EmailRequest`: an object is
decoded field by field (missing fields keep zero values), `null` gives the
zero struct, any other JSON value is a decode error. -/
def EmailRequest.fromJson : Json → Option EmailRequest
  | Json.obj ms =>
    match decodeStrField ms "from", decodeStrField ms "to",
          decodeStrField ms "subject", decodeStrField ms "html",
          decodeStrField ms "name", decodeStrField ms "reply_to",
          decodeHeadersField ms with
    | some f, some t, some s, some h, some n, some rt, some hd =>
      some ⟨f, t, s, h, n, rt, hd⟩
    | _, _, _, _, _, _, _ => none
  | Json.null => some ⟨"", "", "", "", "", "", []⟩
  | _ => none

/-! ### SMTP transport: data model and MIME assembly (smtp.go) -/

/-- An email attachment (smtp.go lines 34-38); content bytes as `Nat < 256`. -/
structure Attachment where
  Filename : String
  Content : List Nat
  ContentType : String
deriving Repr, DecidableEq

/-- An email message for SMTP (smtp.go lines 41-50).  The `Headers` map is
modelled as an association list in the (unspecified) order in which Go map
iteration visits it; theorems about it either fix the list or state
order-robust facts. -/
structure EmailMessage where
  From : String
  To : List String
  Subject : String
  HTML : String
  Name : String
  ReplyTo : String
  Attachments : List Attachment
  Headers : List (String × String)

/-- smtp.go lines 124-129. -/
def formatAddress (email name : String) : String :=
  if name = "" then email else name ++ " <" ++ email ++ ">"

/-- Go `strings.Join xs ", "`. -/
def joinComma : List String → String
  | [] => ""
  | [x] => x
  | x :: y :: rest => x ++ ", " ++ joinComma (y :: rest)

/-- Go `textproto` valid header-field byte: printable ASCII token characters
(letters, digits, and the fifteen specials of RFC 7230 tokens). -/
def validHeaderFieldChar (c : Char) : Bool :=
  let n := c.toNat
  (48 ≤ n && n ≤ 57) || (97 ≤ n && n ≤ 122) || (65 ≤ n && n ≤ 90) ||
  n = 33 || n = 35 || n = 36 || n = 37 || n = 38 || n = 39 || n = 42 ||
  n = 43 || n = 45 || n = 46 || n = 94 || n = 95 || n = 96 || n = 124 || n = 126

/-- One character of MIME header-key canonicalization: uppercase when at the
start or right after a hyphen, lowercase otherwise. -/
def canonChar (up : Bool) (c : Char) : Char :=
  if up then
    (if 97 ≤ c.toNat && c.toNat ≤ 122 then Char.ofNat (c.toNat - 32) else c)
  else
    (if 65 ≤ c.toNat && c.toNat ≤ 90 then Char.ofNat (c.toNat + 32) else c)

def canonLoop : Bool → List Char → List Char
  | _, [] => []
  | up, c :: cs => canonChar up c :: canonLoop (c = '-') cs

/-- Go `textproto.CanonicalMIMEHeaderKey`: keys containing an invalid header
character are returned unchanged; otherwise the key is canonicalized
(first letter and letters following a hyphen uppercased, the rest lowercased). -/
def canonicalMIMEHeaderKey (s : String) : String :=
  if s.data.all validHeaderFieldChar then String.mk (canonLoop true s.data) else s

/-- A `textproto.MIMEHeader` (map from canonical key to list of values),
modelled as an association list with at most one entry per key. -/
abbrev MIMEHeaderMap : Type := List (String × List String)

/-- `MIMEHeader.Set k v`: canonicalizes the key and REPLACES any previous
values with the single value `v`. -/
def mimeSet (h : MIMEHeaderMap) (k v : String) : MIMEHeaderMap :=
  let ck := canonicalMIMEHeaderKey k
  if h.any (fun p => p.1 = ck) then
    h.map (fun p => if p.1 = ck then (ck, [v]) else p)
  else h ++ [(ck, [v])]

/-- Look up the values stored under a (already canonical) key. -/
def mimeGet (h : MIMEHeaderMap) (k : String) : Option (List String) :=
  match h with
  | [] => none
  | p :: rest => if p.1 = k then some p.2 else mimeGet rest k

/-- The header map assembled by `SMTPClient.SendEmail` (smtp.go lines 58-72)
before it is written out: the five standard headers, then `Reply-To` when the
message has one, then each caller-supplied custom header applied with `Set`.
The multipart boundary (chosen randomly by `multipart.NewWriter`) is a
parameter. -/
def buildHeaderMap (msg : EmailMessage) (boundary : String) : MIMEHeaderMap :=
  let h0 := mimeSet [] "From" (formatAddress msg.From msg.Name)
  let h1 := mimeSet h0 "To" (joinComma msg.To)
  let h2 := mimeSet h1 "Subject" msg.Subject
  let h3 := mimeSet h2 "MIME-Version" "1.0"
  let h4 := mimeSet h3 "Content-Type" ("multipart/mixed; boundary=" ++ boundary)
  let h5 := if msg.ReplyTo = "" then h4 else mimeSet h4 "Reply-To" msg.ReplyTo
  msg.Headers.foldl (fun h p => mimeSet h p.1 p.2) h5

/-- The header lines written at smtp.go lines 75-80: one `key: value\r\n`
line per stored value.  Go iterates the map in unspecified order, so only
membership in this list is meaningful, not its order. -/
def headerLines (h : MIMEHeaderMap) : List String :=
  h.foldr
    (fun p acc => (p.2.map fun v => p.1 ++ ": " ++ v ++ "\r\n") ++ acc) []

/-- The standard base64 alphabet (Go `base64.StdEncoding`). -/
def base64Chars : List Char :=
  "ABCDEFGHIJKLMNOPQRSTUVWXYZabcdefghijklmnopqrstuvwxyz0123456789+/".data

def b64c (n : Nat) : Char := base64Chars.getD n 'A'

/-- Go `base64.StdEncoding` of a byte sequence: 3 bytes to 4 characters,
with `=` padding for a 1- or 2-byte tail (the streaming encoder used in
smtp.go inserts no line breaks). -/
def base64Encode : List Nat → String
  | [] => ""
  | [b1] =>
    String.mk [b64c (b1 / 4), b64c (b1 % 4 * 16), '=', '=']
  | [b1, b2] =>
    String.mk [b64c (b1 / 4), b64c (b1 % 4 * 16 + b2 / 16), b64c (b2 % 16 * 4), '=']
  | b1 :: b2 :: b3 :: rest =>
    String.mk [b64c (b1 / 4), b64c (b1 % 4 * 16 + b2 / 16),
               b64c (b2 % 16 * 4 + b3 / 64), b64c (b3 % 64)]
      ++ base64Encode rest

def hexDigitChar (n : Nat) : Char := "0123456789abcdef".data.getD n '0'

/-- Go `strconv.Quote` treatment of one rune: quote and backslash are
escaped, printable ASCII is kept, the seven C escapes apply, other bytes
below 0x80 become a hex escape.  Runes at or above 0x80 are modelled as
printable (an approximation of the `unicode.IsPrint` table, exact on ASCII). -/
def quoteRune (c : Char) : List Char :=
  let n := c.toNat
  if n = 34 then ['\\', '"']
  else if n = 92 then ['\\', '\\']
  else if 32 ≤ n ∧ n ≤ 126 then [c]
  else if n = 7 then ['\\', 'a']
  else if n = 8 then ['\\', 'b']
  else if n = 12 then ['\\', 'f']
  else if n = 10 then ['\\', 'n']
  else if n = 13 then ['\\', 'r']
  else if n = 9 then ['\\', 't']
  else if n = 11 then ['\\', 'v']
  else if n < 128 then ['\\', 'x', hexDigitChar (n / 16 % 16), hexDigitChar (n % 16)]
  else [c]

/-- Go `fmt` verb `%q` on a string (`strconv.Quote`): a double-quoted string
with escapes, as used in smtp.go for `name=%q` and `filename=%q`. -/
def goQuote (s : String) : String :=
  String.mk ('"' :: s.data.foldr (fun c acc => quoteRune c ++ acc) ['"'])

/-- One MIME part: the `textproto.MIMEHeader` passed to `CreatePart` and the
content bytes written into the part (as a string; attachment bytes arrive
base64-encoded, so the content is ASCII). -/
structure MimePart where
  headers : List (String × List String)
  content : String
deriving Repr, DecidableEq

/-- The parts created by `SMTPClient.SendEmail` (smtp.go lines 84-109), in
creation order: first the HTML body part, whose content is the raw bytes of
`msg.HTML` (no quoted-printable transformation despite the header), then one
part per attachment with the base64 encoding of its bytes as content. -/
def buildParts (msg : EmailMessage) : List MimePart :=
  { headers := [("Content-Type", ["text/html; charset=UTF-8"]),
                ("Content-Transfer-Encoding", ["quoted-printable"])],
    content := msg.HTML } ::
  msg.Attachments.map (fun a =>
    { headers := [("Content-Type", [a.ContentType ++ "; name=" ++ goQuote a.Filename]),
                  ("Content-Disposition", ["attachment; filename=" ++ goQuote a.Filename]),
                  ("Content-Transfer-Encoding", ["base64"])],
      content := base64Encode a.Content })

/-- Look up a single-valued header among a part's headers. -/
def partHeader (hs : List (String × List String)) (k : String) : Option (List String) :=
  match hs with
  | [] => none
  | p :: rest => if p.1 = k then some p.2 else partHeader rest k

/-! ### Helpers: attachment construction and validation (helpers.go) -/

/-- Scanning loop of Go `filepath.Ext`: walk the path from its end; a dot
found before any path separator yields the suffix from that dot on. -/
def extLoop : List Char → List Char → String
  | [], _ => ""
  | c :: cs, acc =>
    if c = '/' then ""
    else if c = '.' then String.mk (c :: acc)
    else extLoop cs (c :: acc)

/-- Go `filepath.Ext` (unix separator): the suffix beginning at the final dot
in the final path element, empty when there is no dot. -/
def filepathExt (p : String) : String := extLoop p.data.reverse []

/-- Go `filepath.Base` (unix separator): `"."` for the empty path, trailing
slashes stripped, everything up to and including the last separator dropped,
`"/"` when nothing remains. -/
def filepathBase (p : String) : String :=
  if p = "" then "."
  else
    let stripped := (p.data.reverse.dropWhile (fun c => c = '/')).reverse
    let last := (stripped.reverse.takeWhile (fun c => ¬ (c = '/'))).reverse
    if last = [] then "/" else String.mk last

/-- First-match lookup in an association list of strings. -/
def lookupAssoc : List (String × String) → String → Option String
  | [], _ => none
  | p :: rest, k => if p.1 = k then some p.2 else lookupAssoc rest k

/-- The extension table built into Go's `mime` package (`builtinTypesLower`).
System-specific registrations (e.g. from /etc/mime.types) are not modelled. -/
def builtinMimeTable : List (String × String) :=
  [(".avif", "image/avif"),
   (".css", "text/css; charset=utf-8"),
   (".gif", "image/gif"),
   (".htm", "text/html; charset=utf-8"),
   (".html", "text/html; charset=utf-8"),
   (".jpeg", "image/jpeg"),
   (".jpg", "image/jpeg"),
   (".js", "text/javascript; charset=utf-8"),
   (".json", "application/json"),
   (".mjs", "text/javascript; charset=utf-8"),
   (".pdf", "application/pdf"),
   (".png", "image/png"),
   (".svg", "image/svg+xml"),
   (".wasm", "application/wasm"),
   (".webp", "image/webp"),
   (".xml", "text/xml; charset=utf-8")]

/-- Go `mime.TypeByExtension`: exact lookup, then lookup of the lowercased
extension; the empty string when the extension is not registered. -/
def mimeTypeByExtension (ext : String) : String :=
  match lookupAssoc builtinMimeTable ext with
  | some t => t
  | none =>
    match lookupAssoc builtinMimeTable (toLowerAscii ext) with
    | some t => t
    | none => ""

/-- helpers.go lines 13-30.  Reading the file is I/O; its result is the
`readResult` parameter (`none` models a read error, which makers propagate). -/
def newAttachmentFromFile (filePath : String) (readResult : Option (List Nat)) :
    Option Attachment :=
  match readResult with
  | none => none
  | some content =>
    let ct0 := mimeTypeByExtension (filepathExt filePath)
    let ct := if ct0 = "" then "application/octet-stream" else ct0
    some { Filename := filepathBase filePath, Content := content, ContentType := ct }

/-- helpers.go lines 33-49.  Reading the reader is I/O; its result is the
`readResult` parameter. -/
def newAttachmentFromReader (readResult : Option (List Nat)) (filename : String) :
    Option Attachment :=
  match readResult with
  | none => none
  | some content =>
    let ct0 := mimeTypeByExtension (filepathExt filename)
    let ct := if ct0 = "" then "application/octet-stream" else ct0
    some { Filename := filename, Content := content, ContentType := ct }

/-- helpers.go lines 52-58: `ValidateEmail` fails with
`"invalid email address: <email>"` exactly when the address lacks an `@`. -/
def validateEmail (email : String) : Option String :=
  if ¬ (strHasSub email "@" = true) then some ("invalid email address: " ++ email)
  else none

/-- helpers.go lines 61-68: `ValidateEmailList` returns the first failure of
`ValidateEmail` over the list, in order, and succeeds otherwise. -/
def validateEmailList : List String → Option String
  | [] => none
  | e :: rest =>
    match validateEmail e with
    | some err => some err
    | none => validateEmailList rest

/-! ### Derived definitions used in claim statements -/

/-- Whether an extension has a registered MIME type (exact key, then the
ASCII-lowercased key), and which type: the `Option`-valued view of
`mimeTypeByExtension`. -/
def mimeRegistered (ext : String) : Option String :=
  match lookupAssoc builtinMimeTable ext with
  | some t => some t
  | none => lookupAssoc builtinMimeTable (toLowerAscii ext)

/-- The property claimed for the REST error path, stated literally: for a
non-200 status the failure message contains the server-supplied error text
when the body is a JSON object with a string `"error"` field, and otherwise
contains the numeric status code; a 200 status yields no error. -/
def c1ClaimedProperty (resp : RestResponse) : Prop :=
  (resp.statusCode = 200 → sendEmailResponseError resp = none) ∧
  (¬ resp.statusCode = 200 →
    ∃ m, sendEmailResponseError resp = some m ∧
      (match errorFieldOf resp.body with
       | some e => strHasSub m e = true
       | none => strHasSub m (Nat.repr resp.statusCode) = true))

/-- The members of a JSON object value (empty for non-objects). -/
def jsonMembers : Json → List (String × Json)
  | Json.obj ms => ms
  | _ => []

/-- The property claimed by C7 on the SMTP side, stated literally: the
assembled header map has a `Reply-To` entry with exactly the message's value
when that is non-empty, and no `Reply-To` entry when it is empty. -/
def c7SmtpClaimedProperty (msg : EmailMessage) (b : String) : Prop :=
  (¬ msg.ReplyTo = "" →
    mimeGet (buildHeaderMap msg b) "Reply-To" = some [msg.ReplyTo]) ∧
  (msg.ReplyTo = "" → mimeGet (buildHeaderMap msg b) "Reply-To" = none)

/-- The four always-present members of the marshalled `EmailRequest`. -/
def baseSeg (r : EmailRequest) : List (String × Json) :=
  [("from", Json.str r.From), ("to", Json.str r.To),
   ("subject", Json.str r.Subject), ("html", Json.str r.HTML)]

/-- The optional `"name"` member (`omitempty`). -/
def nameSeg (r : EmailRequest) : List (String × Json) :=
  if r.Name = "" then [] else [("name", Json.str r.Name)]

/-- The optional `"reply_to"` member (`omitempty`). -/
def replySeg (r : EmailRequest) : List (String × Json) :=
  if r.ReplyTo = "" then [] else [("reply_to", Json.str r.ReplyTo)]

/-- The optional `"headers"` member (`omitempty`). -/
def headersSeg (r : EmailRequest) : List (String × Json) :=
  if r.Headers = [] then []
  else [("headers", Json.obj ((sortPairs r.Headers).map
          fun p => (p.1, Json.str p.2)))]

/-- The full member list of the marshalled `EmailRequest`. -/
def reqMembers (r : EmailRequest) : List (String × Json) :=
  ((baseSeg r ++ nameSeg r) ++ replySeg r) ++ headersSeg r

/-! ### General lemmas about the embedded operations -/

theorem listStartsWith_self (l : List Char) : listStartsWith l l = true := by
  induction l with
  | nil => rfl
  | cons c cs ih => simp [listStartsWith, ih]

theorem listHasSub_append_self (p sub : List Char) :
    listHasSub (p ++ sub) sub = true := by
  induction p with
  | nil =>
    unfold listHasSub
    simp [listStartsWith_self]
  | cons c cs ih =>
    rw [List.cons_append]
    unfold listHasSub
    by_cases h : listStartsWith (c :: (cs ++ sub)) sub = true
    · rw [if_pos h]
    · rw [if_neg h]
      exact ih

/-- A string always contains its own suffix: `p ++ s` contains `s`. -/
theorem strHasSub_append_self (p s : String) : strHasSub (p ++ s) s = true := by
  unfold strHasSub
  rw [String.data_append]
  exact listHasSub_append_self p.data s.data


theorem lookupAssoc_all_ne_empty (l : List (String × String)) (k t : String)
    (hl : l.all (fun p => ¬ p.2 = "") = true)
    (h : lookupAssoc l k = some t) : ¬ t = "" := by
  induction l with
  | nil => simp [lookupAssoc] at h
  | cons p rest ih =>
    simp only [List.all_cons, Bool.and_eq_true] at hl
    unfold lookupAssoc at h
    by_cases hk : p.1 = k
    · rw [if_pos hk] at h
      obtain rfl : p.2 = t := by injection h
      simpa using hl.1
    · rw [if_neg hk] at h
      exact ih hl.2 h

theorem decodeErrLoop_no_key (ms : List (String × Json)) (acc : String)
    (h : lookupLastErrorKey ms = none) : decodeErrLoop ms acc = some acc := by
  induction ms generalizing acc with
  | nil => rfl
  | cons p rest ih =>
    obtain ⟨k, v⟩ := p
    unfold lookupLastErrorKey at h
    unfold decodeErrLoop
    cases hrest : lookupLastErrorKey rest with
    | some r => rw [hrest] at h; exact absurd h (by simp)
    | none =>
      rw [hrest] at h
      by_cases hk : toLowerAscii k = "error"
      · rw [if_pos hk] at h
        exact absurd h (by simp)
      · rw [if_neg hk]
        exact ih acc hrest

theorem decodeErrLoop_last_str (ms : List (String × Json)) (acc d e : String)
    (hd : decodeErrLoop ms acc = some d)
    (he : lookupLastErrorKey ms = some (Json.str e)) : d = e := by
  induction ms generalizing acc with
  | nil => simp [lookupLastErrorKey] at he
  | cons p rest ih =>
    obtain ⟨k, v⟩ := p
    unfold lookupLastErrorKey at he
    unfold decodeErrLoop at hd
    cases hrest : lookupLastErrorKey rest with
    | some r =>
      rw [hrest] at he
      obtain rfl : r = Json.str e := by injection he
      by_cases hk : toLowerAscii k = "error"
      · rw [if_pos hk] at hd
        cases v with
        | str s => exact ih s hd hrest
        | null => exact ih acc hd hrest
        | _ => simp at hd
      · rw [if_neg hk] at hd
        exact ih acc hd hrest
    | none =>
      rw [hrest] at he
      by_cases hk : toLowerAscii k = "error"
      · rw [if_pos hk] at he
        obtain rfl : v = Json.str e := by injection he
        rw [if_pos hk] at hd
        have hd2 : decodeErrLoop rest e = some d := hd
        rw [decodeErrLoop_no_key rest e hrest] at hd2
        injection hd2 with hd2
        exact hd2.symm
      · rw [if_neg hk] at he
        exact absurd he (by simp)

theorem validateEmail_eq_none_iff (e : String) :
    validateEmail e = none ↔ strHasSub e "@" = true := by
  unfold validateEmail
  by_cases h : strHasSub e "@" = true
  · simp [h]
  · simp [h]

/-- Claim C6: `ValidateEmailList` succeeds if and only if every member of the
list independently satisfies `ValidateEmail`, i.e. every member contains the
character `@`. -/
theorem claimC6_validateEmailList_iff (emails : List String) :
    (validateEmailList emails = none ↔ ∀ e ∈ emails, strHasSub e "@" = true) ∧
    (∀ e, validateEmail e = none ↔ strHasSub e "@" = true) := by
  refine ⟨?_, validateEmail_eq_none_iff⟩
  induction emails with
  | nil => simp [validateEmailList]
  | cons e rest ih =>
    unfold validateEmailList
    by_cases h : strHasSub e "@" = true
    · rw [(validateEmail_eq_none_iff e).mpr h]
      simp only [List.mem_cons]
      constructor
      · intro hl x hx
        rcases hx with rfl | hx
        · exact h
        · exact ih.mp hl x hx
      · intro hall
        exact ih.mpr (fun x hx => hall x (Or.inr hx))
    · have : ¬ validateEmail e = none := fun hc => h ((validateEmail_eq_none_iff e).mp hc)
      cases hv : validateEmail e with
      | none => exact absurd hv this
      | some err =>
        simp only [hv]
        constructor
        · intro hc; exact absurd hc (by simp)
        · intro hall
          exact absurd (hall e (List.mem_cons_self e rest)) h

/-- Witness for C6 at the inputs named by the spec. -/
theorem claimC6_witness :
    validateEmailList ["a@b.com", "c@d.com"] = none ∧
    ¬ validateEmailList ["a@b.com", "bad"] = none := by
  constructor
  · exact (claimC6_validateEmailList_iff ["a@b.com", "c@d.com"]).1.mpr (by decide)
  · intro h
    have := (claimC6_validateEmailList_iff ["a@b.com", "bad"]).1.mp h "bad" (by decide)
    exact absurd this (by decide)

/-- Claim C9: the empty address list passes vacuously, and the failure for a
list with an invalid member is that of the first such member in list order,
with a message containing that member's text. -/
theorem claimC9_first_invalid (es : List String) :
    validateEmailList [] = none ∧
    (∀ e, es.find? (fun x => ! strHasSub x "@") = some e →
      validateEmailList es = some ("invalid email address: " ++ e) ∧
      strHasSub ("invalid email address: " ++ e) e = true) := by
  refine ⟨rfl, ?_⟩
  induction es with
  | nil => intro e he; simp [List.find?] at he
  | cons x rest ih =>
    intro e he
    rw [List.find?_cons] at he
    unfold validateEmailList validateEmail
    by_cases h : strHasSub x "@" = true
    · rw [if_neg (by simp [h])]
      rw [h] at he
      simp only [Bool.not_true] at he
      exact ih e (by simpa using he)
    · have hx : strHasSub x "@" = false := by
        cases hb : strHasSub x "@" with
        | false => rfl
        | true => exact absurd hb h
      rw [hx] at he
      simp only [Bool.not_false] at he
      obtain rfl : x = e := by simpa using he
      rw [if_pos (by simp [hx])]
      exact ⟨rfl, strHasSub_append_self "invalid email address: " x⟩

/-- Witness for C9: concrete lists exercising both conjuncts. -/
theorem claimC9_witness :
    validateEmailList [] = none ∧
    validateEmailList ["a@b.com", "bad", "worse"] =
      some ("invalid email address: " ++ "bad") ∧
    strHasSub ("invalid email address: " ++ "bad") "bad" = true := by
  refine ⟨(claimC9_first_invalid []).1, ?_, ?_⟩
  · exact ((claimC9_first_invalid ["a@b.com", "bad", "worse"]).2 "bad" (by decide)).1
  · exact ((claimC9_first_invalid ["a@b.com", "bad", "worse"]).2 "bad" (by decide)).2

/-- Claim C10: `NewAttachmentFromFile` stores the base name of the path as
the filename; `NewAttachmentFromReader` stores the caller-supplied filename
unchanged. -/
theorem claimC10_filenames (filePath fn : String) (rr1 rr2 : Option (List Nat))
    (a b : Attachment)
    (ha : newAttachmentFromFile filePath rr1 = some a)
    (hb : newAttachmentFromReader rr2 fn = some b) :
    a.Filename = filepathBase filePath ∧ b.Filename = fn := by
  constructor
  · cases rr1 with
    | none => simp [newAttachmentFromFile] at ha
    | some content =>
      simp only [newAttachmentFromFile] at ha
      obtain rfl : _ = a := by injection ha
      rfl
  · cases rr2 with
    | none => simp [newAttachmentFromReader] at hb
    | some content =>
      simp only [newAttachmentFromReader] at hb
      obtain rfl : _ = b := by injection hb
      rfl

/-- Witness for C10 at a concrete path with a directory prefix. -/
theorem claimC10_witness :
    (newAttachmentFromFile "/tmp/docs/report.pdf" (some [1, 2, 3])).map
      Attachment.Filename = some "report.pdf" ∧
    (newAttachmentFromReader (some [9]) "raw-name.bin").map
      Attachment.Filename = some "raw-name.bin" := by
  have h := claimC10_filenames "/tmp/docs/report.pdf" "raw-name.bin"
    (some [1, 2, 3]) (some [9])
    { Filename := filepathBase "/tmp/docs/report.pdf", Content := [1, 2, 3],
      ContentType := "application/pdf" }
    { Filename := "raw-name.bin", Content := [9],
      ContentType := "application/octet-stream" }
    (by decide) (by decide)
  constructor
  · rw [show newAttachmentFromFile "/tmp/docs/report.pdf" (some [1, 2, 3]) =
        some { Filename := filepathBase "/tmp/docs/report.pdf", Content := [1, 2, 3],
               ContentType := "application/pdf" } from by decide]
    rw [Option.map_some', h.1]
    decide
  · rw [show newAttachmentFromReader (some [9]) "raw-name.bin" =
        some { Filename := "raw-name.bin", Content := [9],
               ContentType := "application/octet-stream" } from by decide]
    rw [Option.map_some', h.2]

theorem mimeTypeByExtension_eq_registered (ext : String) :
    mimeTypeByExtension ext = (mimeRegistered ext).getD "" := by
  unfold mimeTypeByExtension mimeRegistered
  cases lookupAssoc builtinMimeTable ext with
  | some t => rfl
  | none =>
    cases lookupAssoc builtinMimeTable (toLowerAscii ext) with
    | some t => rfl
    | none => rfl

theorem mimeRegistered_ne_empty (ext t : String)
    (h : mimeRegistered ext = some t) : ¬ t = "" := by
  unfold mimeRegistered at h
  cases hx : lookupAssoc builtinMimeTable ext with
  | some u =>
    rw [hx] at h
    injection h with h2
    rw [← h2]
    exact lookupAssoc_all_ne_empty builtinMimeTable ext u (by decide) hx
  | none =>
    rw [hx] at h
    exact lookupAssoc_all_ne_empty builtinMimeTable (toLowerAscii ext) t (by decide) h

theorem contentTypeSpec (ext : String) :
    (∀ t, mimeRegistered ext = some t →
      (if mimeTypeByExtension ext = "" then "application/octet-stream"
       else mimeTypeByExtension ext) = t) ∧
    (mimeRegistered ext = none →
      (if mimeTypeByExtension ext = "" then "application/octet-stream"
       else mimeTypeByExtension ext) = "application/octet-stream") ∧
    ¬ (if mimeTypeByExtension ext = "" then "application/octet-stream"
       else mimeTypeByExtension ext) = "" := by
  rw [mimeTypeByExtension_eq_registered ext]
  cases hreg : mimeRegistered ext with
  | some t =>
    simp only [Option.getD_some]
    rw [if_neg (mimeRegistered_ne_empty ext t hreg)]
    exact ⟨fun u hu => by injection hu,
           fun hc => absurd hc (by simp),
           mimeRegistered_ne_empty ext t hreg⟩
  | none =>
    simp only [Option.getD_none]
    refine ⟨fun u hu => absurd hu (by simp), fun _ => by simp, by simp⟩

/-- Claim C3: every attachment built by `NewAttachmentFromFile` or
`NewAttachmentFromReader` carries the registered MIME type of its filename's
extension when one is registered, the generic binary fallback
`application/octet-stream` otherwise, and in particular never the empty
string. -/
theorem claimC3_content_type (filePath fn : String) (rr1 rr2 : Option (List Nat))
    (a b : Attachment)
    (ha : newAttachmentFromFile filePath rr1 = some a)
    (hb : newAttachmentFromReader rr2 fn = some b) :
    ((∀ t, mimeRegistered (filepathExt filePath) = some t → a.ContentType = t) ∧
     (mimeRegistered (filepathExt filePath) = none →
        a.ContentType = "application/octet-stream") ∧
     ¬ a.ContentType = "") ∧
    ((∀ t, mimeRegistered (filepathExt fn) = some t → b.ContentType = t) ∧
     (mimeRegistered (filepathExt fn) = none →
        b.ContentType = "application/octet-stream") ∧
     ¬ b.ContentType = "") := by
  constructor
  · cases rr1 with
    | none => simp [newAttachmentFromFile] at ha
    | some content =>
      simp only [newAttachmentFromFile] at ha
      obtain rfl : _ = a := by injection ha
      exact contentTypeSpec (filepathExt filePath)
  · cases rr2 with
    | none => simp [newAttachmentFromReader] at hb
    | some content =>
      simp only [newAttachmentFromReader] at hb
      obtain rfl : _ = b := by injection hb
      exact contentTypeSpec (filepathExt fn)

/-- Witness for C3: a known extension (`.pdf`) and an unknown one (`.zzz`). -/
theorem claimC3_witness :
    (newAttachmentFromFile "doc.pdf" (some [1])).map Attachment.ContentType =
      some "application/pdf" ∧
    (newAttachmentFromReader (some [2]) "blob.zzz").map Attachment.ContentType =
      some "application/octet-stream" := by
  have h := claimC3_content_type "doc.pdf" "blob.zzz" (some [1]) (some [2])
    { Filename := "doc.pdf", Content := [1], ContentType := "application/pdf" }
    { Filename := "blob.zzz", Content := [2],
      ContentType := "application/octet-stream" }
    (by decide) (by decide)
  refine ⟨?_, ?_⟩
  · rw [show newAttachmentFromFile "doc.pdf" (some [1]) =
        some { Filename := "doc.pdf", Content := [1],
               ContentType := "application/pdf" } from by decide]
    rw [Option.map_some']
  · rw [show newAttachmentFromReader (some [2]) "blob.zzz" =
        some { Filename := "blob.zzz", Content := [2],
               ContentType := "application/octet-stream" } from by decide]
    rw [Option.map_some']

/-- Claim C4: the HTML body part carries the header
`Content-Transfer-Encoding: quoted-printable` while its written content is
exactly the raw bytes of the `HTML` field — no quoted-printable
transformation is applied. -/
theorem claimC4_html_part (msg : EmailMessage) :
    ((buildParts msg).headD { headers := [], content := "" }).content = msg.HTML ∧
    partHeader ((buildParts msg).headD { headers := [], content := "" }).headers
      "Content-Transfer-Encoding" = some ["quoted-printable"] ∧
    partHeader ((buildParts msg).headD { headers := [], content := "" }).headers
      "Content-Type" = some ["text/html; charset=UTF-8"] := by
  refine ⟨rfl, ?_, ?_⟩
  · show partHeader [("Content-Type", ["text/html; charset=UTF-8"]),
      ("Content-Transfer-Encoding", ["quoted-printable"])]
      "Content-Transfer-Encoding" = some ["quoted-printable"]
    decide
  · show partHeader [("Content-Type", ["text/html; charset=UTF-8"]),
      ("Content-Transfer-Encoding", ["quoted-printable"])]
      "Content-Type" = some ["text/html; charset=UTF-8"]
    decide

/-- Claim C2: a message with exactly two attachments yields exactly two MIME
parts besides the HTML body part; each attachment part's content is the
base64 encoding of the attachment's bytes, carries
`Content-Transfer-Encoding: base64`, and its `Content-Disposition` names the
original filename (Go `%q`-quoted). -/
theorem claimC2_two_attachments (msg : EmailMessage) (a1 a2 : Attachment)
    (h : msg.Attachments = [a1, a2]) :
    ∃ p0 p1 p2, buildParts msg = [p0, p1, p2] ∧
      p0.content = msg.HTML ∧
      p1.content = base64Encode a1.Content ∧
      p2.content = base64Encode a2.Content ∧
      partHeader p1.headers "Content-Transfer-Encoding" = some ["base64"] ∧
      partHeader p2.headers "Content-Transfer-Encoding" = some ["base64"] ∧
      partHeader p1.headers "Content-Disposition" =
        some ["attachment; filename=" ++ goQuote a1.Filename] ∧
      partHeader p2.headers "Content-Disposition" =
        some ["attachment; filename=" ++ goQuote a2.Filename] ∧
      partHeader p1.headers "Content-Type" =
        some [a1.ContentType ++ "; name=" ++ goQuote a1.Filename] ∧
      partHeader p2.headers "Content-Type" =
        some [a2.ContentType ++ "; name=" ++ goQuote a2.Filename] := by
  unfold buildParts
  rw [h]
  refine ⟨_, _, _, by rw [List.map_cons, List.map_cons, List.map_nil], rfl, rfl, rfl,
    ?_, ?_, ?_, ?_, ?_, ?_⟩ <;>
    simp [partHeader]

/-- Witness for C2: a concrete message with two attachments. -/
theorem claimC2_witness :
    (buildParts
      { From := "f@x", To := ["t@x"], Subject := "s", HTML := "<p>hi</p>",
        Name := "", ReplyTo := "",
        Attachments := [{ Filename := "a.pdf", Content := [1, 2, 3],
                          ContentType := "application/pdf" },
                        { Filename := "b.bin", Content := [77],
                          ContentType := "application/octet-stream" }],
        Headers := [] }).length = 3 := by
  obtain ⟨p0, p1, p2, hparts, -⟩ :=
    claimC2_two_attachments
      { From := "f@x", To := ["t@x"], Subject := "s", HTML := "<p>hi</p>",
        Name := "", ReplyTo := "",
        Attachments := [{ Filename := "a.pdf", Content := [1, 2, 3],
                          ContentType := "application/pdf" },
                        { Filename := "b.bin", Content := [77],
                          ContentType := "application/octet-stream" }],
        Headers := [] }
      { Filename := "a.pdf", Content := [1, 2, 3],
        ContentType := "application/pdf" }
      { Filename := "b.bin", Content := [77],
        ContentType := "application/octet-stream" }
      rfl
  rw [hparts]
  rfl

/-- Counterexample to C1 as stated: a 500 response whose body is the JSON
object with no members decodes successfully into the error struct, so the
code returns `"api error: "` — a message that neither carries a
server-supplied text nor contains the status code `500`. -/
theorem claimC1_counterexample :
    ¬ c1ClaimedProperty { statusCode := 500, body := some (Json.obj []) } := by
  intro h
  obtain ⟨m, hm, hc⟩ := h.2 (by decide)
  have hme : some "api error: " = some m := by
    rw [← hm]
    rfl
  injection hme with hme
  rw [← hme] at hc
  have hfield : errorFieldOf (some (Json.obj [])) = none := rfl
  rw [hfield] at hc
  exact absurd hc (by decide)

/-- Claim C1, amended to what the code does: for a non-200 status, when the
body decodes into the error struct (any JSON object whose members matching
the `Error` field — case-insensitively, so `"error"` and `"Error"` alike —
are well-typed, or `null`) the failure message is `"api error: "` followed by
the decoded field (empty when no member matches); only when the decode fails
(body is not valid JSON, or a non-object non-null value) does the message
carry the numeric status code; in particular a body that is a JSON object
whose last field-matching member is the string `e` yields a message
containing `e`, and a 200 status yields no error. -/
theorem claimC1_rest_error (status : Nat) (body : Option Json) :
    (status = 200 →
      sendEmailResponseError { statusCode := status, body := body } = none) ∧
    (¬ status = 200 →
      (∀ d, body.bind decodeErrorResp = some d →
        sendEmailResponseError { statusCode := status, body := body } =
          some ("api error: " ++ d)) ∧
      (body.bind decodeErrorResp = none →
        sendEmailResponseError { statusCode := status, body := body } =
          some ("error response with status " ++ Nat.repr status) ∧
        strHasSub ("error response with status " ++ Nat.repr status)
          (Nat.repr status) = true) ∧
      (∀ ms e, body = some (Json.obj ms) →
        lookupLastErrorKey ms = some (Json.str e) →
        ¬ body.bind decodeErrorResp = none →
        ∃ m, sendEmailResponseError { statusCode := status, body := body } =
          some m ∧ strHasSub m e = true)) := by
  constructor
  · intro h200
    unfold sendEmailResponseError
    rw [if_pos h200]
  · intro hne
    refine ⟨?_, ?_, ?_⟩
    · intro d hd
      unfold sendEmailResponseError
      rw [if_neg hne]
      simp only [hd]
    · intro hd
      have h1 : sendEmailResponseError { statusCode := status, body := body } =
          some ("error response with status " ++ Nat.repr status) := by
        unfold sendEmailResponseError
        rw [if_neg hne]
        simp only [hd]
      exact ⟨h1, strHasSub_append_self "error response with status " (Nat.repr status)⟩
    · intro ms e hbody hfield hdec
      subst hbody
      cases hd : decodeErrLoop ms "" with
      | none =>
        exact absurd (by simpa [decodeErrorResp] using hd) hdec
      | some d =>
        have hde : d = e := decodeErrLoop_last_str ms "" d e hd hfield
        subst hde
        refine ⟨"api error: " ++ d, ?_, strHasSub_append_self "api error: " d⟩
        unfold sendEmailResponseError
        rw [if_neg hne]
        have hb : (some (Json.obj ms)).bind decodeErrorResp = some d := by
          simpa [decodeErrorResp] using hd
        simp only [hb]

/-- Witness for the amended C1: the spec's own examples — body
`obj [error: rate limited]` at status 404, an unparseable body at 503,
success at 200 — plus the case-insensitive field match on body
`obj [Error: boom]` at status 500. -/
theorem claimC1_witness :
    sendEmailResponseError
      { statusCode := 404,
        body := some (Json.obj [("error", Json.str "rate limited")]) } =
      some ("api error: " ++ "rate limited") ∧
    (sendEmailResponseError { statusCode := 503, body := none } =
      some ("error response with status " ++ Nat.repr 503) ∧
     strHasSub ("error response with status " ++ Nat.repr 503)
       (Nat.repr 503) = true) ∧
    sendEmailResponseError { statusCode := 200, body := none } = none ∧
    sendEmailResponseError
      { statusCode := 500, body := some (Json.obj [("Error", Json.str "boom")]) } =
      some ("api error: " ++ "boom") := by
  refine ⟨?_, ?_, ?_, ?_⟩
  · exact ((claimC1_rest_error 404
      (some (Json.obj [("error", Json.str "rate limited")]))).2
      (by decide)).1 "rate limited" rfl
  · exact (((claimC1_rest_error 503 none).2 (by decide)).2).1 rfl
  · exact (claimC1_rest_error 200 none).1 rfl
  · exact ((claimC1_rest_error 500
      (some (Json.obj [("Error", Json.str "boom")]))).2
      (by decide)).1 "boom" (by decide)

/-! ### Lemmas about the MIME header map -/

theorem mimeGet_nil (k : String) : mimeGet [] k = none := rfl

theorem mimeGet_cons (p : String × List String) (rest : MIMEHeaderMap) (k : String) :
    mimeGet (p :: rest) k = if p.1 = k then some p.2 else mimeGet rest k := rfl

theorem mimeGet_map_replace (h : MIMEHeaderMap) (ck : String) (v : String)
    (hany : h.any (fun p => p.1 = ck) = true) :
    mimeGet (h.map (fun p => if p.1 = ck then (ck, [v]) else p)) ck = some [v] := by
  induction h with
  | nil => simp at hany
  | cons p rest ih =>
    rw [List.map_cons]
    by_cases hp : p.1 = ck
    · rw [if_pos hp, mimeGet_cons]
      rw [if_pos rfl]
    · rw [if_neg hp, mimeGet_cons]
      rw [if_neg hp]
      refine ih ?_
      rw [List.any_cons] at hany
      simpa [hp] using hany

theorem mimeGet_map_replace_other (h : MIMEHeaderMap) (ck ck2 : String) (v : String)
    (hne : ¬ ck2 = ck) :
    mimeGet (h.map (fun p => if p.1 = ck then (ck, [v]) else p)) ck2 = mimeGet h ck2 := by
  induction h with
  | nil => rfl
  | cons p rest ih =>
    rw [List.map_cons]
    by_cases hp : p.1 = ck
    · rw [if_pos hp, mimeGet_cons, mimeGet_cons]
      rw [if_neg (show ¬ (ck, [v]).1 = ck2 from fun hc => hne hc.symm)]
      rw [if_neg (show ¬ p.1 = ck2 from fun hc => hne (hc ▸ hp))]
      exact ih
    · rw [if_neg hp, mimeGet_cons, mimeGet_cons]
      by_cases hq : p.1 = ck2
      · rw [if_pos hq, if_pos hq]
      · rw [if_neg hq, if_neg hq]
        exact ih

theorem mimeGet_append_of_absent (h1 h2 : MIMEHeaderMap) (ck : String)
    (habs : h1.any (fun p => p.1 = ck) = false) :
    mimeGet (h1 ++ h2) ck = mimeGet h2 ck := by
  induction h1 with
  | nil => rfl
  | cons p rest ih =>
    rw [List.any_cons] at habs
    have hp : ¬ p.1 = ck := by
      intro hc
      simp [hc] at habs
    rw [List.cons_append, mimeGet_cons, if_neg hp]
    exact ih (by simpa [hp] using habs)

theorem mimeGet_append_single_other (h : MIMEHeaderMap) (ck ck2 : String) (v : String)
    (hne : ¬ ck2 = ck) :
    mimeGet (h ++ [(ck, [v])]) ck2 = mimeGet h ck2 := by
  induction h with
  | nil =>
    rw [List.nil_append, mimeGet_cons]
    rw [if_neg (show ¬ (ck, [v]).1 = ck2 from fun hc => hne hc.symm)]
  | cons p rest ih =>
    rw [List.cons_append, mimeGet_cons, mimeGet_cons]
    by_cases hq : p.1 = ck2
    · rw [if_pos hq, if_pos hq]
    · rw [if_neg hq, if_neg hq]
      exact ih

/-- `Set` then `Get` at the canonical key yields precisely the new value. -/
theorem mimeGet_mimeSet_self (h : MIMEHeaderMap) (k v : String) :
    mimeGet (mimeSet h k v) (canonicalMIMEHeaderKey k) = some [v] := by
  unfold mimeSet
  by_cases hany : h.any (fun p => p.1 = canonicalMIMEHeaderKey k) = true
  · rw [if_pos hany]
    exact mimeGet_map_replace h (canonicalMIMEHeaderKey k) v hany
  · rw [if_neg hany]
    have habs : h.any (fun p => p.1 = canonicalMIMEHeaderKey k) = false := by
      cases hb : h.any (fun p => p.1 = canonicalMIMEHeaderKey k) with
      | false => rfl
      | true => exact absurd hb hany
    rw [mimeGet_append_of_absent h _ _ habs]
    rw [mimeGet_cons, if_pos rfl]

/-- `Set` leaves every other key untouched. -/
theorem mimeGet_mimeSet_other (h : MIMEHeaderMap) (k v ck2 : String)
    (hne : ¬ ck2 = canonicalMIMEHeaderKey k) :
    mimeGet (mimeSet h k v) ck2 = mimeGet h ck2 := by
  unfold mimeSet
  by_cases hany : h.any (fun p => p.1 = canonicalMIMEHeaderKey k) = true
  · rw [if_pos hany]
    exact mimeGet_map_replace_other h _ ck2 v hne
  · rw [if_neg hany]
    exact mimeGet_append_single_other h _ ck2 v hne

/-- Folding `Set` over custom headers none of which canonicalize to `ck`
leaves the entry at `ck` unchanged. -/
theorem mimeGet_foldl_absent (l : List (String × String)) (h : MIMEHeaderMap)
    (ck : String) (habs : ∀ p ∈ l, ¬ canonicalMIMEHeaderKey p.1 = ck) :
    mimeGet (l.foldl (fun acc p => mimeSet acc p.1 p.2) h) ck = mimeGet h ck := by
  induction l generalizing h with
  | nil => rfl
  | cons q rest ih =>
    rw [List.foldl_cons]
    rw [ih (mimeSet h q.1 q.2) (fun p hp => habs p (List.mem_cons_of_mem q hp))]
    exact mimeGet_mimeSet_other h q.1 q.2 ck
      (fun hc => habs q (List.mem_cons_self q rest) hc.symm)

/-- Folding `Set` over custom headers containing `(k, v)` as the unique
entry whose key canonicalizes to `canonicalMIMEHeaderKey k` stores exactly
`[v]` under that canonical key. -/
theorem mimeGet_foldl_of_mem (l : List (String × String)) (h : MIMEHeaderMap)
    (k v : String) (hmem : (k, v) ∈ l)
    (huniq : ∀ p ∈ l, canonicalMIMEHeaderKey p.1 = canonicalMIMEHeaderKey k →
      p = (k, v)) :
    mimeGet (l.foldl (fun acc p => mimeSet acc p.1 p.2) h)
      (canonicalMIMEHeaderKey k) = some [v] := by
  induction l generalizing h with
  | nil => exact absurd hmem (List.not_mem_nil _)
  | cons q rest ih =>
    rw [List.foldl_cons]
    by_cases hqr : (k, v) ∈ rest
    · exact ih (mimeSet h q.1 q.2) hqr
        (fun p hp => huniq p (List.mem_cons_of_mem q hp))
    · have hq : q = (k, v) := by
        rcases List.mem_cons.mp hmem with hh | hh
        · exact hh.symm
        · exact absurd hh hqr
      subst hq
      have habs : ∀ p ∈ rest, ¬ canonicalMIMEHeaderKey p.1 = canonicalMIMEHeaderKey k := by
        intro p hp hc
        have := huniq p (List.mem_cons_of_mem _ hp) hc
        subst this
        exact hqr hp
      rw [mimeGet_foldl_absent rest _ _ habs]
      exact mimeGet_mimeSet_self h k v

/-- Counterexample to C5 as stated: the custom header key `x-test` is NOT
written verbatim — `textproto.MIMEHeader.Set` canonicalizes it, so the
assembled header block contains the line `X-Test: v` and no line
`x-test: v`. -/
theorem claimC5_counterexample :
    ((headerLines (buildHeaderMap
      { From := "f@x", To := ["t@x"], Subject := "s", HTML := "", Name := "",
        ReplyTo := "", Attachments := [], Headers := [("x-test", "v")] } "B")).contains
      ("X-Test: v" ++ "\r\n") = true ∧
     (headerLines (buildHeaderMap
      { From := "f@x", To := ["t@x"], Subject := "s", HTML := "", Name := "",
        ReplyTo := "", Attachments := [], Headers := [("x-test", "v")] } "B")).contains
      ("x-test: v" ++ "\r\n") = false) := by
  decide

/-- Claim C5, amended to what the code does: a caller-supplied custom header
is stored under its MIME-canonicalized key with its value unchanged, and
(being a map entry) a unique custom header for a given canonical key ends up
as exactly that single value — later `Set` calls replace rather than
accumulate, so repeated keys ARE deduplicated, a canonical-key collision with
a standard header overwrites it, and emission order follows Go's unspecified
map iteration order rather than coming after the standard headers. -/
theorem claimC5_custom_headers (msg : EmailMessage) (b k v : String)
    (hmem : (k, v) ∈ msg.Headers)
    (huniq : ∀ p ∈ msg.Headers,
      canonicalMIMEHeaderKey p.1 = canonicalMIMEHeaderKey k → p = (k, v)) :
    mimeGet (buildHeaderMap msg b) (canonicalMIMEHeaderKey k) = some [v] := by
  unfold buildHeaderMap
  exact mimeGet_foldl_of_mem msg.Headers _ k v hmem huniq

/-- Witness for the amended C5. -/
theorem claimC5_witness :
    mimeGet (buildHeaderMap
      { From := "f@x", To := ["t@x"], Subject := "s", HTML := "", Name := "",
        ReplyTo := "", Attachments := [], Headers := [("x-test", "v")] } "B")
      (canonicalMIMEHeaderKey "x-test") = some ["v"] := by
  exact claimC5_custom_headers
    { From := "f@x", To := ["t@x"], Subject := "s", HTML := "", Name := "",
      ReplyTo := "", Attachments := [], Headers := [("x-test", "v")] }
    "B" "x-test" "v" (by decide) (by decide)

theorem lookupLast_append_right (l1 l2 : List (String × Json)) (k : String)
    (v : Json) (h : lookupLast l2 k = some v) :
    lookupLast (l1 ++ l2) k = some v := by
  induction l1 with
  | nil => exact h
  | cons q rest ih =>
    obtain ⟨k0, v0⟩ := q
    rw [List.cons_append]
    unfold lookupLast
    rw [ih]

theorem lookupLast_append_left (l1 l2 : List (String × Json)) (k : String)
    (h : lookupLast l2 k = none) :
    lookupLast (l1 ++ l2) k = lookupLast l1 k := by
  induction l1 with
  | nil => exact h
  | cons q rest ih =>
    obtain ⟨k0, v0⟩ := q
    rw [List.cons_append]
    unfold lookupLast
    rw [ih]

/-- Counterexample to C7 as stated: a message whose `ReplyTo` field is empty
but whose custom `Headers` map carries a `Reply-To` entry still emits a
`Reply-To` header line, so "when Reply-To is omitted ... no Reply-To header
line is emitted" fails. -/
theorem claimC7_counterexample :
    ¬ c7SmtpClaimedProperty
      { From := "f@x", To := ["t@x"], Subject := "s", HTML := "", Name := "",
        ReplyTo := "", Attachments := [], Headers := [("Reply-To", "x@y")] }
      "B" := by
  intro h
  have h2 := h.2 rfl
  have h3 : mimeGet (buildHeaderMap
      { From := "f@x", To := ["t@x"], Subject := "s", HTML := "", Name := "",
        ReplyTo := "", Attachments := [], Headers := [("Reply-To", "x@y")] }
      "B") "Reply-To" = some ["x@y"] := by decide
  rw [h2] at h3
  exact absurd h3 (by simp)

theorem mimeGet_stdHeaders_replyTo (msg : EmailMessage) (b : String) :
    mimeGet (mimeSet (mimeSet (mimeSet (mimeSet (mimeSet [] "From"
      (formatAddress msg.From msg.Name)) "To" (joinComma msg.To)) "Subject"
      msg.Subject) "MIME-Version" "1.0") "Content-Type"
      ("multipart/mixed; boundary=" ++ b)) "Reply-To" = none := by
  rw [mimeGet_mimeSet_other _ _ _ _ (by decide)]
  rw [mimeGet_mimeSet_other _ _ _ _ (by decide)]
  rw [mimeGet_mimeSet_other _ _ _ _ (by decide)]
  rw [mimeGet_mimeSet_other _ _ _ _ (by decide)]
  rw [mimeGet_mimeSet_other _ _ _ _ (by decide)]
  rfl

theorem jsonMembers_obj (ms : List (String × Json)) :
    jsonMembers (Json.obj ms) = ms := rfl

/-- Claim C7, amended to what the code does: a non-empty Reply-To appears as
`"reply_to"` in the REST JSON and as a `Reply-To` header entry in the SMTP
header map, and an empty one is absent from both — PROVIDED no caller-supplied
custom header has canonical key `Reply-To`; such a custom header overrides
the Reply-To field in the SMTP path (see the counterexample). -/
theorem claimC7_reply_to (r : EmailRequest) (msg : EmailMessage) (b : String)
    (hnone : ∀ p ∈ msg.Headers, ¬ canonicalMIMEHeaderKey p.1 = "Reply-To") :
    (¬ r.ReplyTo = "" →
      lookupLast (jsonMembers r.toJson) "reply_to" = some (Json.str r.ReplyTo)) ∧
    (r.ReplyTo = "" → lookupLast (jsonMembers r.toJson) "reply_to" = none) ∧
    (¬ msg.ReplyTo = "" →
      mimeGet (buildHeaderMap msg b) "Reply-To" = some [msg.ReplyTo]) ∧
    (msg.ReplyTo = "" → mimeGet (buildHeaderMap msg b) "Reply-To" = none) := by
  have hobj : r.toJson = Json.obj
      ((([("from", Json.str r.From), ("to", Json.str r.To),
          ("subject", Json.str r.Subject), ("html", Json.str r.HTML)]
        ++ (if r.Name = "" then [] else [("name", Json.str r.Name)]))
        ++ (if r.ReplyTo = "" then [] else [("reply_to", Json.str r.ReplyTo)]))
        ++ (if r.Headers = [] then []
            else [("headers", Json.obj ((sortPairs r.Headers).map
                     fun p => (p.1, Json.str p.2)))])) := rfl
  have hheadersSeg : lookupLast (if r.Headers = [] then []
      else [("headers", Json.obj ((sortPairs r.Headers).map
               fun p => (p.1, Json.str p.2)))]) "reply_to" = none := by
    by_cases hh : r.Headers = []
    · rw [if_pos hh]; rfl
    · rw [if_neg hh]
      simp [lookupLast]
  have hnameSeg : lookupLast (if r.Name = "" then []
      else [("name", Json.str r.Name)]) "reply_to" = none := by
    by_cases hh : r.Name = ""
    · rw [if_pos hh]; rfl
    · rw [if_neg hh]
      simp [lookupLast]
  have hbaseSeg : lookupLast
      [("from", Json.str r.From), ("to", Json.str r.To),
       ("subject", Json.str r.Subject), ("html", Json.str r.HTML)]
      "reply_to" = none := by
    simp [lookupLast]
  have hbhm : buildHeaderMap msg b =
      msg.Headers.foldl (fun h p => mimeSet h p.1 p.2)
        (if msg.ReplyTo = "" then
          (mimeSet (mimeSet (mimeSet (mimeSet (mimeSet [] "From"
            (formatAddress msg.From msg.Name)) "To" (joinComma msg.To))
            "Subject" msg.Subject) "MIME-Version" "1.0") "Content-Type"
            ("multipart/mixed; boundary=" ++ b))
         else mimeSet (mimeSet (mimeSet (mimeSet (mimeSet (mimeSet [] "From"
            (formatAddress msg.From msg.Name)) "To" (joinComma msg.To))
            "Subject" msg.Subject) "MIME-Version" "1.0") "Content-Type"
            ("multipart/mixed; boundary=" ++ b)) "Reply-To" msg.ReplyTo) := rfl
  refine ⟨?_, ?_, ?_, ?_⟩
  · intro hne
    rw [hobj, jsonMembers_obj]
    rw [lookupLast_append_left _ _ _ hheadersSeg]
    refine lookupLast_append_right _ _ _ _ ?_
    rw [if_neg hne]
    rfl
  · intro heq
    rw [hobj, jsonMembers_obj]
    rw [lookupLast_append_left _ _ _ hheadersSeg]
    rw [if_pos heq]
    rw [lookupLast_append_left _ _ _ (by rfl : lookupLast ([] : List (String × Json)) "reply_to" = none)]
    rw [lookupLast_append_left _ _ _ hnameSeg]
    exact hbaseSeg
  · intro hne
    rw [hbhm, if_neg hne]
    rw [mimeGet_foldl_absent msg.Headers _ _ hnone]
    have hck : canonicalMIMEHeaderKey "Reply-To" = "Reply-To" := by decide
    rw [← hck]
    exact mimeGet_mimeSet_self _ "Reply-To" msg.ReplyTo
  · intro heq
    rw [hbhm, if_pos heq]
    rw [mimeGet_foldl_absent msg.Headers _ _ hnone]
    exact mimeGet_stdHeaders_replyTo msg b

/-- Witness for the amended C7: a request/message pair with Reply-To set and
one with it omitted. -/
theorem claimC7_witness :
    lookupLast (jsonMembers (EmailRequest.toJson
      { From := "f@x", To := "t@x", Subject := "s", HTML := "<p>", Name := "",
        ReplyTo := "r@x", Headers := [] })) "reply_to" =
      some (Json.str "r@x") ∧
    lookupLast (jsonMembers (EmailRequest.toJson
      { From := "f@x", To := "t@x", Subject := "s", HTML := "<p>", Name := "",
        ReplyTo := "", Headers := [] })) "reply_to" = none ∧
    mimeGet (buildHeaderMap
      { From := "f@x", To := ["t@x"], Subject := "s", HTML := "", Name := "",
        ReplyTo := "r@x", Attachments := [], Headers := [] } "B") "Reply-To" =
      some ["r@x"] ∧
    mimeGet (buildHeaderMap
      { From := "f@x", To := ["t@x"], Subject := "s", HTML := "", Name := "",
        ReplyTo := "", Attachments := [], Headers := [] } "B") "Reply-To" =
      none := by
  refine ⟨?_, ?_, ?_, ?_⟩
  · exact (claimC7_reply_to
      { From := "f@x", To := "t@x", Subject := "s", HTML := "<p>", Name := "",
        ReplyTo := "r@x", Headers := [] }
      { From := "f@x", To := ["t@x"], Subject := "s", HTML := "", Name := "",
        ReplyTo := "r@x", Attachments := [], Headers := [] } "B"
      (by simp)).1 (by decide)
  · exact (claimC7_reply_to
      { From := "f@x", To := "t@x", Subject := "s", HTML := "<p>", Name := "",
        ReplyTo := "", Headers := [] }
      { From := "f@x", To := ["t@x"], Subject := "s", HTML := "", Name := "",
        ReplyTo := "", Attachments := [], Headers := [] } "B"
      (by simp)).2.1 rfl
  · exact (claimC7_reply_to
      { From := "f@x", To := "t@x", Subject := "s", HTML := "<p>", Name := "",
        ReplyTo := "r@x", Headers := [] }
      { From := "f@x", To := ["t@x"], Subject := "s", HTML := "", Name := "",
        ReplyTo := "r@x", Attachments := [], Headers := [] } "B"
      (by simp)).2.2.1 (by decide)
  · exact (claimC7_reply_to
      { From := "f@x", To := "t@x", Subject := "s", HTML := "<p>", Name := "",
        ReplyTo := "", Headers := [] }
      { From := "f@x", To := ["t@x"], Subject := "s", HTML := "", Name := "",
        ReplyTo := "", Attachments := [], Headers := [] } "B"
      (by simp)).2.2.2 rfl

/-! ### Lemmas for the JSON round trip (claim C8) -/

theorem listCharLt_irrefl (a : List Char) : listCharLt a a = false := by
  induction a with
  | nil => rfl
  | cons c cs ih =>
    unfold listCharLt
    rw [if_neg (Nat.lt_irrefl c.toNat), if_neg (Nat.lt_irrefl c.toNat)]
    exact ih

theorem listCharLe_of_lt (a b : List Char) (h : listCharLt a b = true) :
    listCharLe a b = true := by
  induction a generalizing b with
  | nil => cases b <;> rfl
  | cons c cs ih =>
    cases b with
    | nil => simp [listCharLt] at h
    | cons d ds =>
      unfold listCharLt at h
      unfold listCharLe
      by_cases h1 : c.toNat < d.toNat
      · rw [if_pos h1]
      · rw [if_neg h1] at h ⊢
        by_cases h2 : d.toNat < c.toNat
        · rw [if_pos h2] at h
          exact absurd h (by simp)
        · rw [if_neg h2] at h ⊢
          exact ih ds h

theorem strKeyLe_of_lt (a b : String) (h : strKeyLt a b = true) :
    strKeyLe a b = true :=
  listCharLe_of_lt a.data b.data h

theorem strKeyLt_ne (a b : String) (h : strKeyLt a b = true) : ¬ a = b := by
  intro hc
  subst hc
  unfold strKeyLt at h
  rw [listCharLt_irrefl] at h
  exact absurd h (by simp)

theorem insertPair_of_lt (p : String × String) (l : List (String × String))
    (hall : ∀ q ∈ l, strKeyLt p.1 q.1 = true) : insertPair p l = p :: l := by
  cases l with
  | nil => rfl
  | cons q qs =>
    unfold insertPair
    rw [if_pos (strKeyLe_of_lt _ _ (hall q (List.mem_cons_self q qs)))]

/-- A list already strictly sorted by key is left unchanged by the marshal
key sort. -/
theorem sortPairs_of_sorted (l : List (String × String))
    (hs : l.Pairwise (fun p q => strKeyLt p.1 q.1 = true)) : sortPairs l = l := by
  induction l with
  | nil => rfl
  | cons p rest ih =>
    rw [List.pairwise_cons] at hs
    unfold sortPairs
    rw [ih hs.2]
    exact insertPair_of_lt p rest hs.1

theorem setAssoc_not_mem (acc : List (String × String)) (k v : String)
    (h : acc.any (fun p => p.1 = k) = false) :
    setAssoc acc k v = acc ++ [(k, v)] := by
  unfold setAssoc
  rw [if_neg (by simp [h])]

/-- Decoding the marshalled image of a duplicate-free string map yields the
map back (prepended to the accumulator). -/
theorem decodeStrMapLoop_strify (l : List (String × String)) :
    ∀ acc : List (String × String),
    l.Pairwise (fun p q => ¬ p.1 = q.1) →
    (∀ p ∈ l, acc.any (fun q => q.1 = p.1) = false) →
    decodeStrMapLoop (l.map fun p => (p.1, Json.str p.2)) acc = some (acc ++ l) := by
  induction l with
  | nil =>
    intro acc _ _
    simp [decodeStrMapLoop]
  | cons p rest ih =>
    intro acc hnd hdisj
    obtain ⟨k, v⟩ := p
    rw [List.pairwise_cons] at hnd
    rw [List.map_cons]
    show decodeStrMapLoop (rest.map fun p => (p.1, Json.str p.2))
      (setAssoc acc k v) = some (acc ++ (k, v) :: rest)
    rw [setAssoc_not_mem acc k v
      (hdisj (k, v) (List.mem_cons_self (k, v) rest))]
    rw [ih (acc ++ [(k, v)]) hnd.2 ?_]
    · rw [List.append_assoc]
      rfl
    · intro q hq
      rw [List.any_append]
      rw [hdisj q (List.mem_cons_of_mem (k, v) hq)]
      have : ¬ k = q.1 := hnd.1 q hq
      simp [this]

theorem toJson_eq_segs (r : EmailRequest) :
    r.toJson = Json.obj (((baseSeg r ++ nameSeg r) ++ replySeg r) ++ headersSeg r) := rfl

theorem lookupLast_single_self (k : String) (v : Json) :
    lookupLast [(k, v)] k = some v := by
  show (if k = k then some v else none) = some v
  rw [if_pos rfl]

theorem lookupLast_single_other (k0 k : String) (v : Json) (hne : ¬ k0 = k) :
    lookupLast [(k0, v)] k = none := by
  show (if k0 = k then some v else none) = none
  rw [if_neg hne]

theorem nameSeg_other (r : EmailRequest) (k : String) (hne : ¬ "name" = k) :
    lookupLast (nameSeg r) k = none := by
  unfold nameSeg
  by_cases h : r.Name = ""
  · rw [if_pos h]; rfl
  · rw [if_neg h]
    exact lookupLast_single_other _ _ _ hne

theorem replySeg_other (r : EmailRequest) (k : String) (hne : ¬ "reply_to" = k) :
    lookupLast (replySeg r) k = none := by
  unfold replySeg
  by_cases h : r.ReplyTo = ""
  · rw [if_pos h]; rfl
  · rw [if_neg h]
    exact lookupLast_single_other _ _ _ hne

theorem headersSeg_other (r : EmailRequest) (k : String) (hne : ¬ "headers" = k) :
    lookupLast (headersSeg r) k = none := by
  unfold headersSeg
  by_cases h : r.Headers = []
  · rw [if_pos h]; rfl
  · rw [if_neg h]
    exact lookupLast_single_other _ _ _ hne

theorem baseSeg_from (r : EmailRequest) :
    lookupLast (baseSeg r) "from" = some (Json.str r.From) := rfl

theorem baseSeg_to (r : EmailRequest) :
    lookupLast (baseSeg r) "to" = some (Json.str r.To) := rfl

theorem baseSeg_subject (r : EmailRequest) :
    lookupLast (baseSeg r) "subject" = some (Json.str r.Subject) := rfl

theorem baseSeg_html (r : EmailRequest) :
    lookupLast (baseSeg r) "html" = some (Json.str r.HTML) := rfl

theorem baseSeg_name (r : EmailRequest) :
    lookupLast (baseSeg r) "name" = none := rfl

theorem baseSeg_reply (r : EmailRequest) :
    lookupLast (baseSeg r) "reply_to" = none := rfl

theorem baseSeg_headers (r : EmailRequest) :
    lookupLast (baseSeg r) "headers" = none := rfl

theorem toJson_members (r : EmailRequest) :
    r.toJson = Json.obj (reqMembers r) := rfl

theorem reqMembers_from (r : EmailRequest) :
    lookupLast (reqMembers r) "from" = some (Json.str r.From) := by
  unfold reqMembers
  rw [lookupLast_append_left _ _ _ (headersSeg_other r "from" (by decide))]
  rw [lookupLast_append_left _ _ _ (replySeg_other r "from" (by decide))]
  rw [lookupLast_append_left _ _ _ (nameSeg_other r "from" (by decide))]
  exact baseSeg_from r

theorem reqMembers_to (r : EmailRequest) :
    lookupLast (reqMembers r) "to" = some (Json.str r.To) := by
  unfold reqMembers
  rw [lookupLast_append_left _ _ _ (headersSeg_other r "to" (by decide))]
  rw [lookupLast_append_left _ _ _ (replySeg_other r "to" (by decide))]
  rw [lookupLast_append_left _ _ _ (nameSeg_other r "to" (by decide))]
  exact baseSeg_to r

theorem reqMembers_subject (r : EmailRequest) :
    lookupLast (reqMembers r) "subject" = some (Json.str r.Subject) := by
  unfold reqMembers
  rw [lookupLast_append_left _ _ _ (headersSeg_other r "subject" (by decide))]
  rw [lookupLast_append_left _ _ _ (replySeg_other r "subject" (by decide))]
  rw [lookupLast_append_left _ _ _ (nameSeg_other r "subject" (by decide))]
  exact baseSeg_subject r

theorem reqMembers_html (r : EmailRequest) :
    lookupLast (reqMembers r) "html" = some (Json.str r.HTML) := by
  unfold reqMembers
  rw [lookupLast_append_left _ _ _ (headersSeg_other r "html" (by decide))]
  rw [lookupLast_append_left _ _ _ (replySeg_other r "html" (by decide))]
  rw [lookupLast_append_left _ _ _ (nameSeg_other r "html" (by decide))]
  exact baseSeg_html r

theorem reqMembers_name (r : EmailRequest) :
    lookupLast (reqMembers r) "name" =
      (if r.Name = "" then none else some (Json.str r.Name)) := by
  unfold reqMembers
  rw [lookupLast_append_left _ _ _ (headersSeg_other r "name" (by decide))]
  rw [lookupLast_append_left _ _ _ (replySeg_other r "name" (by decide))]
  by_cases h : r.Name = ""
  · rw [if_pos h]
    rw [lookupLast_append_left _ _ _
      (show lookupLast (nameSeg r) "name" = none from by
        unfold nameSeg; rw [if_pos h]; rfl)]
    exact baseSeg_name r
  · rw [if_neg h]
    refine lookupLast_append_right _ _ _ _ ?_
    unfold nameSeg
    rw [if_neg h]
    exact lookupLast_single_self _ _

theorem reqMembers_reply (r : EmailRequest) :
    lookupLast (reqMembers r) "reply_to" =
      (if r.ReplyTo = "" then none else some (Json.str r.ReplyTo)) := by
  unfold reqMembers
  rw [lookupLast_append_left _ _ _ (headersSeg_other r "reply_to" (by decide))]
  by_cases h : r.ReplyTo = ""
  · rw [if_pos h]
    rw [lookupLast_append_left _ _ _
      (show lookupLast (replySeg r) "reply_to" = none from by
        unfold replySeg; rw [if_pos h]; rfl)]
    rw [lookupLast_append_left _ _ _ (nameSeg_other r "reply_to" (by decide))]
    exact baseSeg_reply r
  · rw [if_neg h]
    refine lookupLast_append_right _ _ _ _ ?_
    unfold replySeg
    rw [if_neg h]
    exact lookupLast_single_self _ _

theorem reqMembers_headers (r : EmailRequest) :
    lookupLast (reqMembers r) "headers" =
      (if r.Headers = [] then none
       else some (Json.obj ((sortPairs r.Headers).map
                    fun p => (p.1, Json.str p.2)))) := by
  unfold reqMembers
  by_cases h : r.Headers = []
  · rw [if_pos h]
    rw [lookupLast_append_left _ _ _
      (show lookupLast (headersSeg r) "headers" = none from by
        unfold headersSeg; rw [if_pos h]; rfl)]
    rw [lookupLast_append_left _ _ _ (replySeg_other r "headers" (by decide))]
    rw [lookupLast_append_left _ _ _ (nameSeg_other r "headers" (by decide))]
    exact baseSeg_headers r
  · rw [if_neg h]
    refine lookupLast_append_right _ _ _ _ ?_
    unfold headersSeg
    rw [if_neg h]
    exact lookupLast_single_self _ _

/-- Claim C8: JSON serialization of an `EmailRequest` loses no fields — the
four mandatory fields always appear with their values, the optional fields
appear exactly when non-empty (absent, not null, when empty), and decoding
the emitted JSON yields back an equal request.  The `Headers` association
list is required to be in the canonical (strictly key-sorted) form in which
it represents a Go map value. -/
theorem claimC8_json_roundtrip (r : EmailRequest)
    (hsort : r.Headers.Pairwise (fun p q => strKeyLt p.1 q.1 = true)) :
    (lookupLast (jsonMembers r.toJson) "from" = some (Json.str r.From) ∧
     lookupLast (jsonMembers r.toJson) "to" = some (Json.str r.To) ∧
     lookupLast (jsonMembers r.toJson) "subject" = some (Json.str r.Subject) ∧
     lookupLast (jsonMembers r.toJson) "html" = some (Json.str r.HTML)) ∧
    (lookupLast (jsonMembers r.toJson) "name" =
      (if r.Name = "" then none else some (Json.str r.Name))) ∧
    (lookupLast (jsonMembers r.toJson) "reply_to" =
      (if r.ReplyTo = "" then none else some (Json.str r.ReplyTo))) ∧
    (lookupLast (jsonMembers r.toJson) "headers" =
      (if r.Headers = [] then none
       else some (Json.obj (r.Headers.map fun p => (p.1, Json.str p.2))))) ∧
    EmailRequest.fromJson r.toJson = some r := by
  have hjm : jsonMembers r.toJson = reqMembers r := rfl
  have hsp : sortPairs r.Headers = r.Headers := sortPairs_of_sorted r.Headers hsort
  have hfrom : decodeStrField (reqMembers r) "from" = some r.From := by
    unfold decodeStrField
    rw [reqMembers_from]
  have hto : decodeStrField (reqMembers r) "to" = some r.To := by
    unfold decodeStrField
    rw [reqMembers_to]
  have hsubject : decodeStrField (reqMembers r) "subject" = some r.Subject := by
    unfold decodeStrField
    rw [reqMembers_subject]
  have hhtml : decodeStrField (reqMembers r) "html" = some r.HTML := by
    unfold decodeStrField
    rw [reqMembers_html]
  have hname : decodeStrField (reqMembers r) "name" = some r.Name := by
    unfold decodeStrField
    rw [reqMembers_name]
    by_cases h : r.Name = ""
    · rw [if_pos h, h]
    · rw [if_neg h]
  have hreply : decodeStrField (reqMembers r) "reply_to" = some r.ReplyTo := by
    unfold decodeStrField
    rw [reqMembers_reply]
    by_cases h : r.ReplyTo = ""
    · rw [if_pos h, h]
    · rw [if_neg h]
  have hheaders : decodeHeadersField (reqMembers r) = some r.Headers := by
    unfold decodeHeadersField
    rw [reqMembers_headers]
    by_cases h : r.Headers = []
    · rw [if_pos h, h]
    · rw [if_neg h, hsp]
      show decodeStrMapLoop (r.Headers.map fun p => (p.1, Json.str p.2)) [] =
        some r.Headers
      rw [decodeStrMapLoop_strify r.Headers []
        (hsort.imp fun hpq => strKeyLt_ne _ _ hpq)
        (fun p hp => rfl)]
      rfl
  refine ⟨⟨?_, ?_, ?_, ?_⟩, ?_, ?_, ?_, ?_⟩
  · rw [hjm]; exact reqMembers_from r
  · rw [hjm]; exact reqMembers_to r
  · rw [hjm]; exact reqMembers_subject r
  · rw [hjm]; exact reqMembers_html r
  · rw [hjm]; exact reqMembers_name r
  · rw [hjm]; exact reqMembers_reply r
  · rw [hjm, reqMembers_headers, hsp]
  · rw [toJson_members]
    show (match decodeStrField (reqMembers r) "from", decodeStrField (reqMembers r) "to",
            decodeStrField (reqMembers r) "subject", decodeStrField (reqMembers r) "html",
            decodeStrField (reqMembers r) "name", decodeStrField (reqMembers r) "reply_to",
            decodeHeadersField (reqMembers r) with
          | some f, some t, some s, some h, some n, some rt, some hd =>
            some { From := f, To := t, Subject := s, HTML := h, Name := n,
                   ReplyTo := rt, Headers := hd }
          | _, _, _, _, _, _, _ => none) = some r
    rw [hfrom, hto, hsubject, hhtml, hname, hreply, hheaders]

/-- Witness for C8: a fully populated request round-trips. -/
theorem claimC8_witness :
    EmailRequest.fromJson (EmailRequest.toJson
      { From := "f@x", To := "t@x", Subject := "s", HTML := "<p>hi</p>",
        Name := "Ana", ReplyTo := "r@x", Headers := [("A", "1"), ("B", "2")] }) =
      some { From := "f@x", To := "t@x", Subject := "s", HTML := "<p>hi</p>",
             Name := "Ana", ReplyTo := "r@x",
             Headers := [("A", "1"), ("B", "2")] } :=
  (claimC8_json_roundtrip
    { From := "f@x", To := "t@x", Subject := "s", HTML := "<p>hi</p>",
      Name := "Ana", ReplyTo := "r@x", Headers := [("A", "1"), ("B", "2")] }
    (by decide)).2.2.2.2
